import Mathlib

/-
Verification of the MCP demo backend core (mcp_client.py, routes/websocket.py).

Shallow embedding conventions:
- The Model Gateway (anthropic.messages.create) is modelled as an oracle: the
  successive responses it would return are passed to process_query as a list,
  consumed one per call.  Running out of oracle responses while the loop still
  needs tools yields Option.none (the real loop would simply call the gateway
  again); every theorem supplies a response list that ends the loop.
- The Transport Session (mcp ClientSession) is modelled as a structure holding
  the tool executor.  Per MCP semantics, session.call_tool does not raise for a
  tool-side fault: the fault surfaces as a CallToolResult with isError set and
  an error-describing text content, which is what the executor returns here.
- The executor receives the list of previously executed calls, so the order in
  which the orchestrator dispatches tools is semantically observable.
- Stateful methods become explicit state passing on ClientState; the AsyncExitStack
  is modelled as the list of resource tags it currently holds.
-/

/-- Tool arguments: a finite mapping of argument names to values
(block.input in the source). -/
abbrev Args := List (String × String)

/-- Result shape of the transport session call_tool, per MCP: a fault inside
the tool surfaces as isError with an error-describing text content, it is not
raised to the caller. -/
structure CallToolResult where
  isError : Bool
  content : List String
deriving Repr, DecidableEq

/-- The Transport Session handle (mcp ClientSession), reduced to the one
operation the claims exercise.  The first argument is the history of calls
already dispatched on this session. -/
structure Session where
  callToolImpl : List (String × Args) → String → Args → CallToolResult

/-- Connection state of MCPClient: session handle, server_path, connected
flag, and the resources currently held by the exit stack. -/
structure ClientState where
  session : Option Session
  server_path : String
  connected : Bool
  stack : List String

/-- MCPClient.call_tool (mcp_client.py lines 466-494), direct path without an
elicitation callback.  Reads self.session; on a live session it returns
result.content[0].text, or the empty string when the result has no content.
The method writes no client state, so the state passes through unchanged. -/
def call_tool (st : ClientState) (hist : List (String × Args)) (name : String)
    (args : Args) : String × ClientState :=
  match st.session with
  | none => ("Error: Not connected", st)
  | some s =>
    let result := s.callToolImpl hist name args
    (match result.content with
     | [] => ""
     | t :: _ => t, st)

/-- A content block of a model response: a text block or a tool-invocation
block (block.type of 'text' or 'tool_use' in the source). -/
inductive ContentBlock where
  | text (s : String)
  | tool_use (id : String) (name : String) (input : Args)
deriving Repr, DecidableEq

/-- One Model Gateway response: stop_reason plus content blocks. -/
structure ModelResponse where
  stop_reason : String
  content : List ContentBlock
deriving Repr, DecidableEq

/-- Record of a tool invocation during query processing (dataclass ToolCall). -/
structure ToolCall where
  name : String
  arguments : Args
  result : String
deriving Repr, DecidableEq

/-- A tool_result block sent back to the model, tagged with the id of the
triggering tool_use block. -/
structure ToolResultBlock where
  tool_use_id : String
  content : String
deriving Repr, DecidableEq

/-- Content of one transcript turn: the seed user text, an assistant block
list, or a batched list of tool results. -/
inductive MessageContent where
  | plain (s : String)
  | blocks (bs : List ContentBlock)
  | results (rs : List ToolResultBlock)
deriving Repr, DecidableEq

/-- One transcript turn. -/
structure Message where
  role : String
  content : MessageContent
deriving Repr, DecidableEq

/-- Observable outcome of process_query: the MCPResponse fields (content,
tool_calls) together with the final local transcript and the dispatch order of
tool executions (ghost trace for the ordering claims). -/
structure QueryOutput where
  content : String
  tool_calls : List ToolCall
  messages : List Message
  exec : List (String × Args)
deriving Repr, DecidableEq

/-- Accumulated effect of the per-block for-loop of one round of
process_query. -/
structure BlocksResult where
  texts : List String
  calls : List ToolCall
  results : List ToolResultBlock
  hist : List (String × Args)
deriving Repr, DecidableEq

/-- The for-block loop of one round (mcp_client.py lines 668-694): text blocks
feed final_text; tool_use blocks are executed in emission order, recorded as
ToolCall entries, and turned into tool_result blocks carrying block.id. -/
def processBlocks (st : ClientState) (hist : List (String × Args)) :
    List ContentBlock → BlocksResult
  | [] => ⟨[], [], [], hist⟩
  | ContentBlock.text s :: rest =>
    let p := processBlocks st hist rest
    { p with texts := s :: p.texts }
  | ContentBlock.tool_use id name args :: rest =>
    let result_text := (call_tool st hist name args).1
    let p := processBlocks st (hist ++ [(name, args)]) rest
    { texts := p.texts
      calls := ⟨name, args, result_text⟩ :: p.calls
      results := ⟨id, result_text⟩ :: p.results
      hist := p.hist }

/-- Text blocks of a block list, in order (the text extraction of lines
671-672 and 709-711). -/
def textsOfBlocks (bs : List ContentBlock) : List String :=
  bs.filterMap fun b =>
    match b with
    | ContentBlock.text s => some s
    | _ => none

/-- Tool-invocation blocks of a block list, in emission order, as
(id, name, input) triples. -/
def toolUsesOf (bs : List ContentBlock) : List (String × String × Args) :=
  bs.filterMap fun b =>
    match b with
    | ContentBlock.tool_use id name args => some (id, name, args)
    | _ => none

/-- The while-loop of process_query (lines 664-711).  Each iteration consumes
one oracle response; a tool_use response appends the assistant turn (all blocks
verbatim) and the batched user tool-result turn, then continues; any other
stop_reason ends the loop and the final text blocks are appended. -/
def queryLoop (st : ClientState) :
    List ModelResponse → List Message → List String → List ToolCall →
    List (String × Args) → Option QueryOutput
  | [], _, _, _, _ => none
  | resp :: rest, msgs, ft, tc, hist =>
    if resp.stop_reason = "tool_use" then
      let p := processBlocks st hist resp.content
      queryLoop st rest
        (msgs ++ [⟨"assistant", MessageContent.blocks resp.content⟩,
                  ⟨"user", MessageContent.results p.results⟩])
        (ft ++ p.texts) (tc ++ p.calls) p.hist
    else
      some { content := String.intercalate "\n" (ft ++ textsOfBlocks resp.content)
             tool_calls := tc
             messages := msgs
             exec := hist }

/-- MCPClient.process_query (mcp_client.py lines 627-716).  With no session it
reports the not-connected condition at once; otherwise it seeds the transcript
with the user query and runs the turn loop against the gateway oracle.  The
tool catalog fetched before the first gateway call only flows into the oracle
and is absorbed by the response list. -/
def process_query (st : ClientState) (query : String)
    (responses : List ModelResponse) : Option QueryOutput :=
  match st.session with
  | none =>
    some { content := "Not connected to MCP server"
           tool_calls := []
           messages := []
           exec := [] }
  | some _ => queryLoop st responses [⟨"user", MessageContent.plain query⟩] [] [] []

/-- Specification-side transcript of the tool rounds: one assistant turn with
the blocks verbatim followed by one user turn batching the round results, per
round, threading the execution history. -/
def transcriptOfRounds (st : ClientState) (hist : List (String × Args)) :
    List ModelResponse → List Message
  | [] => []
  | r :: rest =>
    let p := processBlocks st hist r.content
    ⟨"assistant", MessageContent.blocks r.content⟩ ::
      ⟨"user", MessageContent.results p.results⟩ ::
        transcriptOfRounds st p.hist rest

/-- Specification-side tool-call log across rounds. -/
def callsOfRounds (st : ClientState) (hist : List (String × Args)) :
    List ModelResponse → List ToolCall
  | [] => []
  | r :: rest =>
    let p := processBlocks st hist r.content
    p.calls ++ callsOfRounds st p.hist rest

/-- Specification-side execution order: the tool_use blocks of every round in
round order, each round in emission order. -/
def execOfRounds : List ModelResponse → List (String × Args)
  | [] => []
  | r :: rest => (toolUsesOf r.content).map (fun t => (t.2.1, t.2.2)) ++ execOfRounds rest

/-- Specification-side text accumulation: the text blocks of every response in
round order. -/
def textsOfRounds : List ModelResponse → List String
  | [] => []
  | r :: rest => textsOfBlocks r.content ++ textsOfRounds rest

/-- A tool descriptor as returned by list_tools (name, description,
input_schema rendered opaque). -/
structure ToolInfo where
  name : String
  description : String
  input_schema : String
deriving Repr, DecidableEq

/-- Environment of one connect attempt: the outcome of entering the stdio
transport, the outcome of entering the ClientSession, the outcome of the
protocol handshake (session initialization call), and the tool catalog the
server advertises on success. -/
structure ConnectEnv where
  launch : Except String Unit
  sessionEnter : Except String Session
  handshake : Except String Unit
  tools : List ToolInfo

/-- Python str.endswith on the character sequence of the strings. -/
def endswith (s suffix : String) : Bool :=
  List.isSuffixOf suffix.data s.data

/-- MCPClient.connect (mcp_client.py lines 173-229).  Validates the script
suffix, enters the stdio transport and the ClientSession on the exit stack
(the session handle is assigned before the handshake), performs the handshake,
and only then sets server_path and connected.  Faults propagate as
Except.error; the state reached at the point of failure is returned
alongside. -/
def connect (st : ClientState) (server_path : String) (env : ConnectEnv) :
    Except String (List ToolInfo) × ClientState :=
  if ¬ (endswith server_path ".py" || endswith server_path ".js") then
    (Except.error "Server script must be a .py or .js file", st)
  else
    match env.launch with
    | Except.error e => (Except.error e, st)
    | Except.ok _ =>
      let st1 := { st with stack := st.stack ++ ["stdio_transport"] }
      match env.sessionEnter with
      | Except.error e => (Except.error e, st1)
      | Except.ok sess =>
        let st2 := { st1 with stack := st1.stack ++ ["client_session"],
                              session := some sess }
        match env.handshake with
        | Except.error e => (Except.error e, st2)
        | Except.ok _ =>
          (Except.ok env.tools,
           { st2 with server_path := server_path, connected := true })

/-- An inbound websocket JSON message, with the fields the elicitation wait
loop reads; absent keys are none (dict.get semantics). -/
structure WsMessage where
  type : Option String
  action : Option String
  data : Option (List (String × String))
deriving Repr, DecidableEq

/-- The dict returned by WebSocketSession.handle_elicitation: action, an
optional reason (present only on timeout), and the data payload (present only
when a response arrived). -/
structure ElicitOutcome where
  action : String
  reason : Option String
  data : Option (List (String × String))
deriving Repr, DecidableEq

/-- The wait loop of WebSocketSession.handle_elicitation (websocket.py lines
70-98).  Time is in whole seconds.  The environment is the queue of inbound
messages, each tagged with the delay until it arrives once a receive starts;
an empty queue means every receive times out.  Each receive uses the slice
min(remaining, 30): a message arriving within the slice is consumed (returned
if it is an elicitation_response, ignored otherwise); otherwise the slice
elapses in full and the message stays queued with its delay reduced.  The
returned triple is (outcome, final elapsed time, the slice bounds used). -/
def handle_elicitation_loop (events : List (Nat × WsMessage)) (elapsed : Nat)
    (slices : List Nat) : ElicitOutcome × Nat × List Nat :=
  if _h120 : 120 ≤ elapsed then
    (⟨"cancel", some "timeout", none⟩, elapsed, slices)
  else
    match events with
    | [] =>
      handle_elicitation_loop [] (elapsed + min (120 - elapsed) 30)
        (slices ++ [min (120 - elapsed) 30])
    | (delta, m) :: rest =>
      if _hd : delta < min (120 - elapsed) 30 then
        if m.type = some "elicitation_response" then
          (⟨m.action.getD "cancel", none, some (m.data.getD [])⟩,
           elapsed + delta, slices ++ [min (120 - elapsed) 30])
        else
          handle_elicitation_loop rest (elapsed + delta)
            (slices ++ [min (120 - elapsed) 30])
      else
        handle_elicitation_loop ((delta - min (120 - elapsed) 30, m) :: rest)
          (elapsed + min (120 - elapsed) 30)
          (slices ++ [min (120 - elapsed) 30])
termination_by 2 * (120 - elapsed) + events.length
decreasing_by
  · omega
  · simp only [List.length_cons]
    omega
  · simp only [List.length_cons]
    omega

/-- WebSocketSession.handle_elicitation: the wait loop started at elapsed 0
after the elicitation request is sent. -/
def handle_elicitation (events : List (Nat × WsMessage)) :
    ElicitOutcome × Nat × List Nat :=
  handle_elicitation_loop events 0 []

/-- The FastMCP ElicitResult shape produced by the client-side bridge. -/
inductive ElicitResultModel where
  | accept (content : List (String × String))
  | decline
  | cancel
deriving Repr, DecidableEq

/-- The outcome mapping of elicitation_handler (mcp_client.py lines 525-538):
accept carries the data payload, decline is passed through, and anything else
(including the timeout outcome) becomes cancel. -/
def elicitation_handler (r : ElicitOutcome) : ElicitResultModel :=
  if r.action = "accept" then ElicitResultModel.accept (r.data.getD [])
  else if r.action = "decline" then ElicitResultModel.decline
  else ElicitResultModel.cancel

/-- One content block of a Model Gateway API response. -/
structure ApiBlock where
  type : String
  text : String
deriving Repr, DecidableEq

/-- A Model Gateway API response: content blocks, model name, stop reason
(None possible). -/
structure ApiResponse where
  content : List ApiBlock
  model : String
  stop_reason : Option String
deriving Repr, DecidableEq

/-- Text extraction from an API response (concatenation of the text blocks,
as in lines 299-302 and 590-593). -/
def apiText (r : ApiResponse) : String :=
  String.join ((r.content.filter (fun b => b.type = "text")).map ApiBlock.text)

/-- The CreateMessageResult returned across the sampling boundary. -/
structure CreateMessageResult where
  role : String
  text : String
  model : String
  stopReason : String
deriving Repr, DecidableEq

/-- Delegated completion of the primary sampling handler (lines 284-320): a
gateway success is converted to a result carrying the concatenated text, the
model name and stop_reason (with falsy stop_reason replaced by endTurn); a
gateway fault is caught by the surrounding except and becomes the
error-marker text.  The Bool records whether the Model Gateway was invoked. -/
def samplingDelegate (gw : Except String ApiResponse) :
    CreateMessageResult × Bool :=
  match gw with
  | Except.ok r =>
    (⟨"assistant", apiText r, r.model,
      match r.stop_reason with
      | some s => if s = "" then "endTurn" else s
      | none => "endTurn"⟩, true)
  | Except.error e =>
    (⟨"assistant", "[Sampling error: " ++ e ++ "]", "error", "endTurn"⟩, true)

/-- The sampling handler installed on the ClientSession
(_create_sampling_handler, mcp_client.py lines 238-320).  cb is the outcome of
awaiting the approval callback (Except.error when the callback raises); gw is
the Model Gateway oracle for the delegated completion.  The try block covers
the callback call and the delegation, so both fault paths end in the
error-marker result.  Python truthiness: a response_text of None or of the
empty string falls through to the delegated completion. -/
def sampling_handler (cb : Except String (Bool × Option String))
    (gw : Except String ApiResponse) : CreateMessageResult × Bool :=
  match cb with
  | Except.error e =>
    (⟨"assistant", "[Sampling error: " ++ e ++ "]", "error", "endTurn"⟩, false)
  | Except.ok (approved, response_text) =>
    if approved = false then
      (⟨"assistant", "[Sampling request rejected by user]", "rejected",
        "endTurn"⟩, false)
    else
      match response_text with
      | some t =>
        if t = "" then samplingDelegate gw
        else (⟨"assistant", t, "user-provided", "endTurn"⟩, false)
      | none => samplingDelegate gw

/-- Delegated completion of the FastMCP-path sampling handler (lines 581-596):
no try/except surrounds it, so a gateway fault propagates as Except.error. -/
def fastmcpDelegate (gw : Except String ApiResponse) :
    Except String String × Bool :=
  match gw with
  | Except.ok r => (Except.ok (apiText r), true)
  | Except.error e => (Except.error e, true)

/-- The sampling handler passed to the FastMCP client
(_call_tool_with_elicitation, mcp_client.py lines 547-598).  cb is none when
no sampling callback is configured; otherwise it is the awaited callback
outcome.  This handler has no try/except: a raising callback or a gateway
fault propagates across the reversed call boundary. -/
def fastmcp_sampling_handler (cb : Option (Except String (Bool × Option String)))
    (gw : Except String ApiResponse) : Except String String × Bool :=
  match cb with
  | none => (Except.ok "[No sampling callback configured]", false)
  | some (Except.error e) => (Except.error e, false)
  | some (Except.ok (approved, response_text)) =>
    if approved = false then
      (Except.ok "[Sampling request rejected by user]", false)
    else
      match response_text with
      | some t =>
        if t = "" then fastmcpDelegate gw
        else (Except.ok t, false)
      | none => fastmcpDelegate gw

/-- A benign tool executor: every call reports ok. -/
def s0 : Session :=
  ⟨fun _ _ _ => ⟨false, ["ok"]⟩⟩

/-- A connected client state over the benign executor. -/
def st0 : ClientState :=
  ⟨some s0, "weather.py", true, ["stdio_transport", "client_session"]⟩

/-- A client state with no live Transport Session. -/
def stNone : ClientState :=
  ⟨none, "", false, []⟩

/-- An executor whose tool faults: the MCP transport surfaces the fault as an
isError result carrying an error-describing text. -/
def sFault : Session :=
  ⟨fun _ _ _ => ⟨true, ["Error executing tool: boom"]⟩⟩

/-- A connected client state over the faulting executor. -/
def stFault : ClientState :=
  ⟨some sFault, "weather.py", true, ["stdio_transport", "client_session"]⟩

/-- A final model response holding two text blocks. -/
def respAB : ModelResponse :=
  ⟨"end_turn", [ContentBlock.text "a", ContentBlock.text "b"]⟩

/-- One tool round: a text block followed by one tool invocation. -/
def roundResp : ModelResponse :=
  ⟨"tool_use",
   [ContentBlock.text "Checking the forecast.",
    ContentBlock.tool_use "toolu_01" "get_forecast"
      [("latitude", "39.7392"), ("longitude", "-104.9903")]]⟩

/-- A final model response closing a tool run. -/
def finalResp : ModelResponse :=
  ⟨"end_turn", [ContentBlock.text "Here is the forecast summary."]⟩

/-- A fresh, disconnected client state. -/
def stFresh : ClientState :=
  ⟨none, "", false, []⟩

/-- A connect environment whose protocol handshake fails after the transport
and the session were entered. -/
def envFail : ConnectEnv :=
  ⟨Except.ok (), Except.ok s0, Except.error "handshake failed", []⟩

/-- A connect environment whose subprocess launch fails outright. -/
def envLaunchFail : ConnectEnv :=
  ⟨Except.error "spawn failed", Except.ok s0, Except.ok (), []⟩

/-- A gateway response used to observe delegated sampling completions. -/
def apiResp0 : ApiResponse :=
  ⟨[⟨"text", "llm output"⟩], "claude-sonnet-4-20250514", some "end_turn"⟩

/-- An event queue holding a single unrelated message and no
elicitation_response. -/
def eventsNoResp : List (Nat × WsMessage) :=
  [(5, ⟨some "chat", none, none⟩)]

theorem processBlocks_texts (st : ClientState) (hist : List (String × Args))
    (bs : List ContentBlock) :
    (processBlocks st hist bs).texts = textsOfBlocks bs := by
  induction bs generalizing hist with
  | nil => rfl
  | cons b rest ih =>
    cases b <;> simp [processBlocks, textsOfBlocks, List.filterMap_cons, ih]

theorem processBlocks_results_ids (st : ClientState)
    (hist : List (String × Args)) (bs : List ContentBlock) :
    (processBlocks st hist bs).results.map ToolResultBlock.tool_use_id =
      (toolUsesOf bs).map (fun t => t.1) := by
  induction bs generalizing hist with
  | nil => rfl
  | cons b rest ih =>
    cases b <;> simp [processBlocks, toolUsesOf, List.filterMap_cons, ih]

theorem processBlocks_hist (st : ClientState) (hist : List (String × Args))
    (bs : List ContentBlock) :
    (processBlocks st hist bs).hist =
      hist ++ (toolUsesOf bs).map (fun t => (t.2.1, t.2.2)) := by
  induction bs generalizing hist with
  | nil => simp [processBlocks, toolUsesOf]
  | cons b rest ih =>
    cases b <;> simp [processBlocks, toolUsesOf, List.filterMap_cons, ih]

theorem textsOfRounds_append (l1 l2 : List ModelResponse) :
    textsOfRounds (l1 ++ l2) = textsOfRounds l1 ++ textsOfRounds l2 := by
  induction l1 with
  | nil => simp [textsOfRounds]
  | cons r rest ih => simp [textsOfRounds, ih]

theorem transcriptOfRounds_length (st : ClientState)
    (hist : List (String × Args)) (rs : List ModelResponse) :
    (transcriptOfRounds st hist rs).length = 2 * rs.length := by
  induction rs generalizing hist with
  | nil => rfl
  | cons r rest ih =>
    simp only [transcriptOfRounds, List.length_cons, ih]
    omega

theorem queryLoop_spec (st : ClientState) (final : ModelResponse)
    (hf : final.stop_reason ≠ "tool_use") :
    ∀ (rounds : List ModelResponse),
      (∀ r ∈ rounds, r.stop_reason = "tool_use") →
      ∀ msgs ft tc hist,
        queryLoop st (rounds ++ [final]) msgs ft tc hist =
          some { content := String.intercalate "\n"
                   (ft ++ (textsOfRounds rounds ++ textsOfBlocks final.content))
                 tool_calls := tc ++ callsOfRounds st hist rounds
                 messages := msgs ++ transcriptOfRounds st hist rounds
                 exec := hist ++ execOfRounds rounds } := by
  intro rounds
  induction rounds with
  | nil =>
    intro _ msgs ft tc hist
    simp [queryLoop, hf, textsOfRounds, callsOfRounds, transcriptOfRounds,
      execOfRounds]
  | cons r rest ih =>
    intro hr msgs ft tc hist
    have hrh : r.stop_reason = "tool_use" := hr r (List.mem_cons_self _ _)
    have hrt : ∀ x ∈ rest, x.stop_reason = "tool_use" :=
      fun x hx => hr x (List.mem_cons_of_mem _ hx)
    simp only [List.cons_append, queryLoop, hrh, if_true]
    rw [List.append_eq, ih hrt]
    simp [textsOfRounds, callsOfRounds, transcriptOfRounds, execOfRounds,
      processBlocks_texts, processBlocks_hist, List.append_assoc]

/-- C1 (amended): for a run whose rounds all need tools and whose last
response is final, the returned content is the newline-joined concatenation of
all text blocks seen across every round in round order; when the first
response is already final, the tool-call list is empty. -/
theorem process_query_text_join (st : ClientState) (s : Session) (q : String)
    (rounds : List ModelResponse) (final : ModelResponse)
    (hs : st.session = some s)
    (hr : ∀ r ∈ rounds, r.stop_reason = "tool_use")
    (hf : final.stop_reason ≠ "tool_use") :
    (process_query st q (rounds ++ [final])).map QueryOutput.content =
      some (String.intercalate "\n" (textsOfRounds (rounds ++ [final]))) ∧
    (rounds = [] →
      (process_query st q (rounds ++ [final])).map QueryOutput.tool_calls =
        some []) := by
  have h := queryLoop_spec st final hf rounds hr
    [⟨"user", MessageContent.plain q⟩] [] [] []
  constructor
  · simp [process_query, hs, h, textsOfRounds_append, textsOfRounds]
  · intro he
    subst he
    have h0 := queryLoop_spec st final hf [] (by simp)
      [⟨"user", MessageContent.plain q⟩] [] [] []
    rw [List.nil_append] at h0
    simp [process_query, hs, h0, callsOfRounds]

/-- Witness for C1: a no-tool run over two text blocks. -/
theorem process_query_text_join_witness :
    respAB.stop_reason ≠ "tool_use" ∧
    (process_query st0 "hi" ([] ++ [respAB])).map QueryOutput.content =
      some (String.intercalate "\n" (textsOfRounds ([] ++ [respAB]))) :=
  ⟨by decide,
   (process_query_text_join st0 s0 "hi" [] respAB rfl (by simp) (by decide)).1⟩

/-- Counterexample to C1 as stated: with two text blocks in one final
response, the returned content is the blocks joined with a newline, not their
plain concatenation. -/
theorem process_query_plain_concat_false :
    (process_query st0 "hi" [respAB]).map QueryOutput.content = some "a\nb" ∧
    "a\nb" ≠ "a" ++ "b" := by
  exact ⟨rfl, by decide⟩

/-- C2: a run with N tool rounds appends exactly N assistant/user turn pairs
after the seed turn; each assistant turn holds the round blocks verbatim and
is followed by one user turn batching the round results; result blocks carry
the id of their triggering tool_use block in emission order; and the tools
are executed in emission order across rounds. -/
theorem process_query_transcript_rounds (st : ClientState) (s : Session)
    (q : String) (rounds : List ModelResponse) (final : ModelResponse)
    (hs : st.session = some s)
    (hr : ∀ r ∈ rounds, r.stop_reason = "tool_use")
    (hf : final.stop_reason ≠ "tool_use") :
    (process_query st q (rounds ++ [final])).map QueryOutput.messages =
      some (⟨"user", MessageContent.plain q⟩ :: transcriptOfRounds st [] rounds) ∧
    (transcriptOfRounds st [] rounds).length = 2 * rounds.length ∧
    (process_query st q (rounds ++ [final])).map QueryOutput.exec =
      some (execOfRounds rounds) ∧
    (∀ hist bs,
      (processBlocks st hist bs).results.map ToolResultBlock.tool_use_id =
        (toolUsesOf bs).map (fun t => t.1)) := by
  have h := queryLoop_spec st final hf rounds hr
    [⟨"user", MessageContent.plain q⟩] [] [] []
  refine ⟨?_, transcriptOfRounds_length st [] rounds, ?_,
    processBlocks_results_ids st⟩
  · simp [process_query, hs, h]
  · simp [process_query, hs, h]

/-- Witness for C2: one mixed round (text plus one invocation) then a final
response. -/
theorem process_query_transcript_rounds_witness :
    (∀ r ∈ [roundResp], r.stop_reason = "tool_use") ∧
    (process_query st0 "weather?" ([roundResp] ++ [finalResp])).map
        QueryOutput.messages =
      some (⟨"user", MessageContent.plain "weather?"⟩ ::
        transcriptOfRounds st0 [] [roundResp]) :=
  ⟨by decide,
   (process_query_transcript_rounds st0 s0 "weather?" [roundResp] finalResp
     rfl (by decide) (by decide)).1⟩

/-- C3 (amended): with no live Transport Session, process_query returns at
once with content Not connected to MCP server and an empty tool-call list,
independently of the gateway oracle, hence without calling the Model Gateway
or the Transport Session and without raising a fault. -/
theorem process_query_not_connected (st : ClientState) (q : String)
    (responses : List ModelResponse) (h : st.session = none) :
    process_query st q responses =
      some ⟨"Not connected to MCP server", [], [], []⟩ := by
  simp [process_query, h]

/-- Witness for C3: the disconnected state. -/
theorem process_query_not_connected_witness :
    process_query stNone "hello" [respAB] =
      some ⟨"Not connected to MCP server", [], [], []⟩ :=
  process_query_not_connected stNone "hello" [respAB] rfl

/-- Counterexample to C3 as stated: the reported content is the longer string
Not connected to MCP server, not the literal Not connected. -/
theorem process_query_not_connected_literal_false :
    (process_query stNone "hello" []).map QueryOutput.content =
      some "Not connected to MCP server" ∧
    "Not connected to MCP server" ≠ "Not connected" := by
  exact ⟨rfl, by decide⟩

/-- C4: a tool invocation whose execution surfaces a fault (an isError result
with an error-describing text) is executed exactly once, its error text is
recorded in the tool-call log and folded into the transcript as the round
tool-result block, and the query still completes with the next model
response. -/
theorem process_query_tool_fault_folded (st : ClientState) (s : Session)
    (q id name : String) (args : Args) (m : String) (r2 : ModelResponse)
    (hs : st.session = some s)
    (hfault : s.callToolImpl [] name args = ⟨true, [m]⟩)
    (hf : r2.stop_reason ≠ "tool_use") :
    process_query st q
        [⟨"tool_use", [ContentBlock.tool_use id name args]⟩, r2] =
      some { content := String.intercalate "\n" (textsOfBlocks r2.content)
             tool_calls := [⟨name, args, m⟩]
             messages :=
               [⟨"user", MessageContent.plain q⟩,
                ⟨"assistant",
                 MessageContent.blocks [ContentBlock.tool_use id name args]⟩,
                ⟨"user", MessageContent.results [⟨id, m⟩]⟩]
             exec := [(name, args)] } := by
  simp [process_query, hs, queryLoop, processBlocks, call_tool, hfault, hf]

/-- Witness for C4: the faulting executor on a single-invocation round. -/
theorem process_query_tool_fault_folded_witness :
    sFault.callToolImpl [] "get_forecast" [] =
      ⟨true, ["Error executing tool: boom"]⟩ ∧
    process_query stFault "q"
        [⟨"tool_use", [ContentBlock.tool_use "toolu_02" "get_forecast" []]⟩,
         finalResp] =
      some { content := String.intercalate "\n" (textsOfBlocks finalResp.content)
             tool_calls := [⟨"get_forecast", [], "Error executing tool: boom"⟩]
             messages :=
               [⟨"user", MessageContent.plain "q"⟩,
                ⟨"assistant",
                 MessageContent.blocks
                   [ContentBlock.tool_use "toolu_02" "get_forecast" []]⟩,
                ⟨"user",
                 MessageContent.results
                   [⟨"toolu_02", "Error executing tool: boom"⟩]⟩]
             exec := [("get_forecast", [])] } :=
  ⟨rfl,
   process_query_tool_fault_folded stFault sFault "q" "toolu_02"
     "get_forecast" [] "Error executing tool: boom" finalResp rfl rfl
     (by decide)⟩

/-- C10: call_tool with no live session reports the plain string
Error: Not connected and leaves the client state unchanged. -/
theorem call_tool_not_connected (st : ClientState)
    (hist : List (String × Args)) (name : String) (args : Args)
    (h : st.session = none) :
    call_tool st hist name args = ("Error: Not connected", st) := by
  simp [call_tool, h]

/-- Witness for C10: the disconnected state. -/
theorem call_tool_not_connected_witness :
    call_tool stNone [] "get_forecast" [] = ("Error: Not connected", stNone) :=
  call_tool_not_connected stNone [] "get_forecast" [] rfl

/-- C9 (amended): a connect attempt that fails after validation propagates
the fault to the caller and sets neither connected nor server_path.  When the
subprocess launch fails, no partial state is retained: the client state is
returned unchanged.  When the failure occurs later, at the protocol
handshake, partial state is retained: the session handle assigned before the
handshake stays assigned and the transport and session resources stay on the
exit stack. -/
theorem connect_failure_partial_state (st : ClientState) (path : String)
    (env : ConnectEnv) (e : String)
    (hp : endswith path ".py" = true) :
    (env.launch = Except.error e →
      connect st path env = (Except.error e, st)) ∧
    (∀ s : Session, env.launch = Except.ok () →
      env.sessionEnter = Except.ok s →
      env.handshake = Except.error e →
      connect st path env =
        (Except.error e,
         { st with
             session := some s,
             stack := st.stack ++ ["stdio_transport", "client_session"] })) := by
  constructor
  · intro hl
    simp [connect, hp, hl]
  · intro s hl hse hh
    simp [connect, hp, hl, hse, hh, List.append_assoc]

/-- Witness for C9: a fresh state and a valid path, once with a launch fault
(state unchanged) and once with a handshake fault (session and resources
retained). -/
theorem connect_failure_partial_state_witness :
    endswith "server.py" ".py" = true ∧
    connect stFresh "server.py" envLaunchFail =
      (Except.error "spawn failed", stFresh) ∧
    connect stFresh "server.py" envFail =
      (Except.error "handshake failed",
       { stFresh with
           session := some s0,
           stack := stFresh.stack ++ ["stdio_transport", "client_session"] }) :=
  ⟨by decide,
   (connect_failure_partial_state stFresh "server.py" envLaunchFail
     "spawn failed" (by decide)).1 rfl,
   (connect_failure_partial_state stFresh "server.py" envFail
     "handshake failed" (by decide)).2 s0 rfl rfl rfl⟩

/-- Counterexample to C9 as stated: after a handshake failure the session
handle and the exit-stack resources are still held, while the fault does
propagate. -/
theorem connect_failure_retains_session :
    (connect stFresh "server.py" envFail).2.session ≠ none ∧
    (connect stFresh "server.py" envFail).2.stack ≠ [] ∧
    (connect stFresh "server.py" envFail).1 = Except.error "handshake failed" := by
  refine ⟨?_, ?_, rfl⟩
  · have h : (connect stFresh "server.py" envFail).2.session = some s0 := rfl
    rw [h]
    simp
  · have h : (connect stFresh "server.py" envFail).2.stack =
        ["stdio_transport", "client_session"] := rfl
    rw [h]
    simp

theorem handle_elicitation_loop_timeout (events : List (Nat × WsMessage))
    (elapsed : Nat) (slices : List Nat) :
    (∀ p ∈ events, p.2.type ≠ some "elicitation_response") →
    elapsed ≤ 120 →
    (∀ b ∈ slices, b ≤ 30) →
    (handle_elicitation_loop events elapsed slices).1 =
      ⟨"cancel", some "timeout", none⟩ ∧
    (handle_elicitation_loop events elapsed slices).2.1 ≤ 120 ∧
    ∀ b ∈ (handle_elicitation_loop events elapsed slices).2.2, b ≤ 30 := by
  induction events, elapsed, slices using handle_elicitation_loop.induct with
  | case1 events elapsed slices h =>
    intro _ he hs
    rw [handle_elicitation_loop.eq_def]
    simp only [h, dite_true]
    exact ⟨trivial, he, hs⟩
  | case2 elapsed slices h ih =>
    intro hn he hs
    rw [handle_elicitation_loop.eq_def]
    simp only [h, dite_false]
    refine ih hn (by omega) ?_
    intro b hb
    rcases List.mem_append.mp hb with hb | hb
    · exact hs b hb
    · simp at hb
      omega
  | case3 elapsed slices h2 delta m rest h1 h =>
    intro hn _ _
    exact absurd h (hn (delta, m) (List.mem_cons_self _ _))
  | case4 elapsed slices h2 delta m rest h1 h ih =>
    intro hn he hs
    rw [handle_elicitation_loop.eq_def]
    simp only [h2, dite_false, h1, dite_true, h, if_false]
    refine ih (fun p hp => hn p (List.mem_cons_of_mem _ hp)) (by omega) ?_
    intro b hb
    rcases List.mem_append.mp hb with hb | hb
    · exact hs b hb
    · simp at hb
      omega
  | case5 elapsed slices h2 delta m rest h1 ih =>
    intro hn he hs
    rw [handle_elicitation_loop.eq_def]
    simp only [h2, dite_false, h1, dite_false]
    refine ih ?_ (by omega) ?_
    · intro p hp
      rcases List.mem_cons.mp hp with hp | hp
      · subst hp
        exact hn (delta, m) (List.mem_cons_self _ _)
      · exact hn p (List.mem_cons_of_mem _ hp)
    · intro b hb
      rcases List.mem_append.mp hb with hb | hb
      · exact hs b hb
      · simp at hb
        omega

/-- C5: when no elicitation_response arrives, the exchange resolves to the
cancel outcome with reason timeout, the wait ends no later than the 120
second deadline, every wait slice is bounded by 30 seconds, and the bridge
maps the outcome to a cancel result for the waiting caller. -/
theorem handle_elicitation_timeout_cancel (events : List (Nat × WsMessage))
    (hn : ∀ p ∈ events, p.2.type ≠ some "elicitation_response") :
    (handle_elicitation events).1 = ⟨"cancel", some "timeout", none⟩ ∧
    (handle_elicitation events).2.1 ≤ 120 ∧
    (∀ b ∈ (handle_elicitation events).2.2, b ≤ 30) ∧
    elicitation_handler (handle_elicitation events).1 =
      ElicitResultModel.cancel := by
  have h := handle_elicitation_loop_timeout events 0 [] hn (by omega) (by simp)
  simp only [handle_elicitation]
  refine ⟨h.1, h.2.1, h.2.2, ?_⟩
  rw [h.1]
  rfl

/-- Witness for C5: a queue holding one unrelated message only. -/
theorem handle_elicitation_timeout_cancel_witness :
    (∀ p ∈ eventsNoResp, p.2.type ≠ some "elicitation_response") ∧
    (handle_elicitation eventsNoResp).1 = ⟨"cancel", some "timeout", none⟩ :=
  ⟨by decide, (handle_elicitation_timeout_cancel eventsNoResp (by decide)).1⟩

/-- C6: a rejected Sampling Exchange yields the fixed rejection marker as a
completed response in both sampling handlers, and the Model Gateway is never
invoked. -/
theorem sampling_rejected_marker (rt : Option String)
    (gw : Except String ApiResponse) :
    sampling_handler (Except.ok (false, rt)) gw =
      (⟨"assistant", "[Sampling request rejected by user]", "rejected",
        "endTurn"⟩, false) ∧
    fastmcp_sampling_handler (some (Except.ok (false, rt))) gw =
      (Except.ok "[Sampling request rejected by user]", false) := by
  exact ⟨rfl, rfl⟩

/-- C7 (amended): an approved Sampling Exchange with a non-empty canned text
returns that text verbatim in both handlers without invoking the Model
Gateway. -/
theorem sampling_canned_text_verbatim (t : String) (ht : t ≠ "")
    (gw : Except String ApiResponse) :
    sampling_handler (Except.ok (true, some t)) gw =
      (⟨"assistant", t, "user-provided", "endTurn"⟩, false) ∧
    fastmcp_sampling_handler (some (Except.ok (true, some t))) gw =
      (Except.ok t, false) := by
  constructor <;> simp [sampling_handler, fastmcp_sampling_handler, ht]

/-- Witness for C7: a concrete non-empty canned text. -/
theorem sampling_canned_text_verbatim_witness :
    ("canned reply" : String) ≠ "" ∧
    sampling_handler (Except.ok (true, some "canned reply"))
        (Except.ok apiResp0) =
      (⟨"assistant", "canned reply", "user-provided", "endTurn"⟩, false) :=
  ⟨by decide,
   (sampling_canned_text_verbatim "canned reply" (by decide)
     (Except.ok apiResp0)).1⟩

/-- Counterexample to C7 as stated: an approved exchange supplying the empty
canned text falls through Python truthiness and does invoke the Model
Gateway, returning the gateway text rather than the canned text. -/
theorem sampling_empty_canned_invokes_gateway :
    (sampling_handler (Except.ok (true, some "")) (Except.ok apiResp0)).2 =
      true ∧
    (sampling_handler (Except.ok (true, some "")) (Except.ok apiResp0)).1.text =
      "llm output" ∧
    ("llm output" : String) ≠ "" := by
  exact ⟨rfl, rfl, by decide⟩

/-- C8 (amended): in the ClientSession sampling handler the try block covers
the approval callback and the delegated completion, so a fault in either is
converted into the error-marker completion text and nothing propagates; the
FastMCP-path handler is outside this guarantee. -/
theorem sampling_fault_caught_primary (e : String)
    (gw : Except String ApiResponse) :
    sampling_handler (Except.error e) gw =
      (⟨"assistant", "[Sampling error: " ++ e ++ "]", "error", "endTurn"⟩,
       false) ∧
    sampling_handler (Except.ok (true, none)) (Except.error e) =
      (⟨"assistant", "[Sampling error: " ++ e ++ "]", "error", "endTurn"⟩,
       true) ∧
    sampling_handler (Except.ok (true, some "")) (Except.error e) =
      (⟨"assistant", "[Sampling error: " ++ e ++ "]", "error", "endTurn"⟩,
       true) := by
  exact ⟨rfl, rfl, rfl⟩

/-- Counterexample to C8 as stated: the FastMCP-path sampling handler has no
try/except, so a Model Gateway fault in a delegated completion propagates
across the reversed call boundary instead of becoming an error-marker
text. -/
theorem sampling_fault_propagates_fastmcp :
    fastmcp_sampling_handler (some (Except.ok (true, none)))
        (Except.error "api down") =
      (Except.error "api down", true) := by
  exact rfl
